import Mathlib

/-!
Verification of the wp-pa11y orchestration script (src/wp-pa11y.js), a tool
that fetches sitemaps, runs an accessibility audit per discovered URL and
writes per-page reports.  The definitions below are a shallow embedding of
the functions of that script: JavaScript strings are `String` (lists of
`Char`), machine-level effects (filesystem writes, browser calls, console
logging) are reified as event traces, and code that can throw returns
`Except String`.  External collaborators (the xml2js parser, the WHATWG URL
parser, puppeteer, pa11y and its reporters) are modelled at their interface,
exactly as the script observes them.
-/

namespace WpPa11y

/-! ## JavaScript character classes used by `getFileName` (src/wp-pa11y.js 253-267)

The script sanitizes a page URL with the regexes `[^\w\s-]`, `[\s_-]+` and
hyphen trimming.  `\w` is the ASCII word class `[A-Za-z0-9_]`; `\s` is the
ECMAScript whitespace/line-terminator class, reproduced below. -/

/-- ECMAScript `\s`: whitespace and line terminators, by code point. -/
def jsIsSpace (c : Char) : Bool :=
  c.toNat = 32 || c.toNat = 9 || c.toNat = 10 || c.toNat = 11 || c.toNat = 12 ||
  c.toNat = 13 || c.toNat = 160 || c.toNat = 5760 ||
  (8192 ≤ c.toNat && c.toNat ≤ 8202) || c.toNat = 8232 || c.toNat = 8233 ||
  c.toNat = 8239 || c.toNat = 8287 || c.toNat = 12288 || c.toNat = 65279

/-- ECMAScript `\w`: `[A-Za-z0-9_]`, by code point. -/
def isWordChar (c : Char) : Bool :=
  (65 ≤ c.toNat && c.toNat ≤ 90) || (97 ≤ c.toNat && c.toNat ≤ 122) ||
  (48 ≤ c.toNat && c.toNat ≤ 57) || c.toNat = 95

/-- Characters matched by the run-collapsing regex `[\s_-]+`. -/
def isRunChar (c : Char) : Bool :=
  jsIsSpace c || c.toNat = 95 || c.toNat = 45

/-- JavaScript `String.prototype.toLowerCase` restricted to the basic latin
range, which is the only part the sanitization pipeline can observe: every
non-ASCII character is removed by the `[^\w\s-]` filter whether or not it was
case-mapped first. -/
def jsLowerChar (c : Char) : Char :=
  if 65 ≤ c.toNat ∧ c.toNat ≤ 90 then Char.ofNat (c.toNat + 32) else c

/-- JavaScript `String.prototype.trim`: drop `\s` characters from both ends. -/
def jsTrim (l : List Char) : List Char :=
  ((l.dropWhile jsIsSpace).reverse.dropWhile jsIsSpace).reverse

/-- The filter `.replace( /[^\w\s-]/g, '' )`: keep word characters,
whitespace and hyphens. -/
def stripNonWord (l : List Char) : List Char :=
  l.filter (fun c => isWordChar c || jsIsSpace c || c.toNat = 45)

/-- Worker for `collapseRuns`; the boolean records whether the previous
character belonged to a `[\s_-]` run (in which case the run already emitted
its single hyphen). -/
def collapseAux : List Char → Bool → List Char
  | [], _ => []
  | c :: cs, inRun =>
    if isRunChar c then
      if inRun then collapseAux cs true else '-' :: collapseAux cs true
    else c :: collapseAux cs false

/-- The substitution `.replace( /[\s_-]+/g, '-' )`: every maximal run of
whitespace, underscores and hyphens becomes a single hyphen. -/
def collapseRuns (l : List Char) : List Char :=
  collapseAux l false

/-- The substitution `.replace( /^-+|-+$/g, '' )`: drop the leading and the
trailing run of hyphens. -/
def trimHyphens (l : List Char) : List Char :=
  ((l.dropWhile (fun c => c = '-')).reverse.dropWhile (fun c => c = '-')).reverse

/-- JavaScript `String.prototype.replace` with a plain-string pattern and an
empty replacement: remove the first occurrence of `pat`, if any. -/
def removeFirst (pat : List Char) : List Char → List Char
  | [] => []
  | c :: cs =>
    if (c :: cs).take pat.length = pat then (c :: cs).drop pat.length
    else c :: removeFirst pat cs

/-- The slug part of `getFileName` (src/wp-pa11y.js 254-260): lower-case,
trim, strip characters outside `[\w\s-]`, collapse `[\s_-]` runs to hyphens,
trim hyphens, then delete the first occurrence of the literal `httpswww`
(what `https://www.` collapses to under the previous steps). -/
def sanitizeSlug (u : String) : List Char :=
  removeFirst "httpswww".data
    (trimHyphens (collapseRuns (stripNonWord (jsTrim (u.data.map jsLowerChar)))))

/-- The fields of a JavaScript `Date` that `getFileName` reads:
`getFullYear()`, `getMonth()` (0-based) and `getDate()`. -/
structure JsDate where
  year : Nat
  monthIndex : Nat
  day : Nat
deriving DecidableEq

/-- The date tag `${dt.getFullYear()}-${dt.getMonth() + 1}-${dt.getDate()}-`
of the template literal in `getFileName`: decimal, no zero padding. -/
def dateCore (d : JsDate) : String :=
  Nat.repr d.year ++ "-" ++ Nat.repr (d.monthIndex + 1) ++ "-" ++ Nat.repr d.day ++ "-"

/-- Embeds `getFileName` (src/wp-pa11y.js 253-267).  The current date is an
explicit argument; the script reads it from `new Date()`. -/
def getFileName (u : String) (d : JsDate) : String :=
  dateCore d ++ String.mk (sanitizeSlug u) ++ ".html"

/-- The character set `[a-z0-9-]` the specification allows in the part of a
report file name that comes before the `.html` extension. -/
def goodChar (c : Char) : Bool :=
  (97 ≤ c.toNat && c.toNat ≤ 122) || (48 ≤ c.toNat && c.toNat ≤ 57) || c.toNat = 45

theorem char_toNat_ofNat {n : Nat} (h : n < 55296) : (Char.ofNat n).toNat = n := by
  have hv : n.isValidChar := Or.inl h
  simp [Char.ofNat, Char.ofNatAux, Char.toNat, dif_pos hv]
  rfl

theorem jsLowerChar_not_upper (c : Char) :
    ¬(65 ≤ (jsLowerChar c).toNat ∧ (jsLowerChar c).toNat ≤ 90) := by
  unfold jsLowerChar
  split
  · next hc =>
    have : (Char.ofNat (c.toNat + 32)).toNat = c.toNat + 32 :=
      char_toNat_ofNat (by omega)
    omega
  · next hc => omega

theorem mem_collapseAux {c : Char} :
    ∀ (l : List Char) (b : Bool), c ∈ collapseAux l b →
      c = '-' ∨ (c ∈ l ∧ isRunChar c = false) := by
  intro l
  induction l with
  | nil => intro b h; simp [collapseAux] at h
  | cons a as ih =>
    intro b h
    by_cases ha : isRunChar a
    · cases b with
      | true =>
        simp [collapseAux, ha] at h
        rcases ih true h with h' | h'
        · exact Or.inl h'
        · exact Or.inr ⟨List.mem_cons_of_mem _ h'.1, h'.2⟩
      | false =>
        simp [collapseAux, ha] at h
        rcases h with h | h
        · exact Or.inl h
        · rcases ih true h with h' | h'
          · exact Or.inl h'
          · exact Or.inr ⟨List.mem_cons_of_mem _ h'.1, h'.2⟩
    · simp [collapseAux, ha] at h
      rcases h with h | h
      · subst h; exact Or.inr ⟨List.mem_cons_self _ _, by simpa using ha⟩
      · rcases ih false h with h' | h'
        · exact Or.inl h'
        · exact Or.inr ⟨List.mem_cons_of_mem _ h'.1, h'.2⟩

theorem mem_trimHyphens {c : Char} {l : List Char} (h : c ∈ trimHyphens l) : c ∈ l := by
  unfold trimHyphens at h
  rw [List.mem_reverse] at h
  have h1 := (List.dropWhile_sublist (l := (l.dropWhile (fun c => c = '-')).reverse)
    (p := fun c => c = '-')).subset h
  rw [List.mem_reverse] at h1
  exact (List.dropWhile_sublist (l := l) (p := fun c => c = '-')).subset h1

theorem mem_jsTrim {c : Char} {l : List Char} (h : c ∈ jsTrim l) : c ∈ l := by
  unfold jsTrim at h
  rw [List.mem_reverse] at h
  have h1 := (List.dropWhile_sublist (l := (l.dropWhile jsIsSpace).reverse)
    (p := jsIsSpace)).subset h
  rw [List.mem_reverse] at h1
  exact (List.dropWhile_sublist (l := l) (p := jsIsSpace)).subset h1

theorem mem_removeFirst {c : Char} (pat : List Char) :
    ∀ l : List Char, c ∈ removeFirst pat l → c ∈ l := by
  intro l
  induction l with
  | nil => intro h; simp [removeFirst] at h
  | cons a as ih =>
    intro h
    by_cases hp : (a :: as).take pat.length = pat
    · rw [removeFirst, if_pos hp] at h
      exact List.drop_subset _ _ h
    · rw [removeFirst, if_neg hp] at h
      rcases List.mem_cons.mp h with h | h
      · simp [h]
      · exact List.mem_cons_of_mem _ (ih h)

theorem sanitizeSlug_good (u : String) : ∀ c ∈ sanitizeSlug u, goodChar c := by
  intro c hc
  have h1 := mem_removeFirst _ _ hc
  have h2 := mem_trimHyphens h1
  have h3 := mem_collapseAux _ _ h2
  rcases h3 with h3 | ⟨h3, hrun⟩
  · subst h3; decide
  · have h4 : isWordChar c || jsIsSpace c || c.toNat = 45 := by
      have := List.mem_filter.mp h3
      simpa [stripNonWord] using this.2
    have h5 : c ∈ u.data.map jsLowerChar := by
      have := List.mem_filter.mp h3
      exact mem_jsTrim this.1
    rcases List.mem_map.mp h5 with ⟨c0, _, hc0⟩
    have hup : ¬(65 ≤ c.toNat ∧ c.toNat ≤ 90) := by
      rw [← hc0]; exact jsLowerChar_not_upper c0
    simp [isRunChar, jsIsSpace] at hrun
    simp [isWordChar, jsIsSpace, goodChar] at h4 ⊢
    omega

theorem digitChar_good {m : Nat} (h : m < 10) : goodChar (Nat.digitChar m) = true := by
  interval_cases m <;> decide

theorem toDigitsCore_good :
    ∀ (f n : Nat) (ds : List Char), (∀ c ∈ ds, goodChar c) →
      ∀ c ∈ Nat.toDigitsCore 10 f n ds, goodChar c := by
  intro f
  induction f with
  | zero => intro n ds hds c hc; exact hds c hc
  | succ f ih =>
    intro n ds hds c hc
    simp only [Nat.toDigitsCore] at hc
    have hdig : ∀ x ∈ Nat.digitChar (n % 10) :: ds, goodChar x := by
      intro x hx
      rcases List.mem_cons.mp hx with hx | hx
      · subst hx; exact digitChar_good (Nat.mod_lt _ (by omega))
      · exact hds x hx
    by_cases hz : n / 10 = 0
    · rw [if_pos hz] at hc; exact hdig c hc
    · rw [if_neg hz] at hc; exact ih _ _ hdig c hc

theorem repr_good (n : Nat) : ∀ c ∈ (Nat.repr n).data, goodChar c := by
  intro c hc
  have : c ∈ Nat.toDigitsCore 10 (n + 1) n [] := hc
  exact toDigitsCore_good _ _ _ (by intro x hx; simp at hx) c this

theorem dateCore_good (d : JsDate) : ∀ c ∈ (dateCore d).data, goodChar c := by
  intro c hc
  simp only [dateCore, String.data_append] at hc
  simp only [List.mem_append] at hc
  rcases hc with ((((h | h) | h) | h) | h) | h
  · exact repr_good _ c h
  · simp at h; subst h; decide
  · exact repr_good _ c h
  · simp at h; subst h; decide
  · exact repr_good _ c h
  · simp at h; subst h; decide

/-- C6: for every page URL and fixed current date, `getFileName` is
deterministic (same URL and same date always yield the same file name), the
result begins with the date tag `YYYY-M-D-` (decimal `getFullYear`,
`getMonth() + 1` and `getDate()`, so month and day are not zero-padded),
ends with the literal extension `.html`, and the part before the extension
contains no character outside `[a-z0-9-]`. -/
theorem getFileName_deterministic_dated_sanitized (u : String) (d : JsDate) :
    (∀ u2 d2, u2 = u → d2 = d → getFileName u2 d2 = getFileName u d) ∧
    (∃ core, getFileName u d = dateCore d ++ core ++ ".html" ∧
      ∀ c ∈ (dateCore d ++ core).data, goodChar c) := by
  refine ⟨fun u2 d2 hu hd => by rw [hu, hd], String.mk (sanitizeSlug u), rfl, ?_⟩
  intro c hc
  simp only [String.data_append, List.mem_append] at hc
  rcases hc with hc | hc
  · exact dateCore_good d c hc
  · exact sanitizeSlug_good u c hc

/-- Witness for C6 at a concrete URL and date. -/
theorem getFileName_deterministic_dated_sanitized_check :
    getFileName "https://www.Example.com/About_Us/" ⟨2026, 9, 11⟩
        = getFileName "https://www.Example.com/About_Us/" ⟨2026, 9, 11⟩ ∧
    getFileName "https://www.Example.com/About_Us/" ⟨2026, 9, 11⟩
        = "2026-10-11-examplecomabout-us.html" := by
  refine ⟨(getFileName_deterministic_dated_sanitized
    "https://www.Example.com/About_Us/" ⟨2026, 9, 11⟩).1 _ _ rfl rfl, ?_⟩
  decide

/-! ## Configuration resolution (src/wp-pa11y.js 82-125)

The script reads CLI options with commander (`opts.sitemaps` is `undefined`
when the flag was not given), searches for a config file with cosmiconfig,
builds `loadedConfig` by object spread (so a `sitemaps` key in the config
file overrides the CLI list), spreads it over the defaults, and finally
trims, filters and deduplicates the sitemap list. -/

/-- JavaScript string trim as a `String` function. -/
def jsTrimStr (s : String) : String :=
  String.mk (jsTrim s.data)

/-- Worker for `setDedup`: `seen` holds the values already emitted. -/
def setDedupAux : List String → List String → List String
  | [], _ => []
  | a :: l, seen =>
    if a ∈ seen then setDedupAux l seen else a :: setDedupAux l (a :: seen)

/-- Embeds `Array.from( new Set( ... ) )` (src/wp-pa11y.js 119): keep the
first occurrence of every value, in insertion order. -/
def setDedup (l : List String) : List String :=
  setDedupAux l []

/-- Embeds the sitemap normalization (src/wp-pa11y.js 113-119):
`.map( a => a.toString().trim() )` (on strings, `toString` is the identity),
`.filter( a => a.length )`, then de-duplication through a `Set`. -/
def normalizeSitemaps (l : List String) : List String :=
  setDedup ((l.map jsTrimStr).filter (fun s => s.length ≠ 0))

/-- Embeds the construction of `loadedConfig.sitemaps` followed by the two
object spreads (src/wp-pa11y.js 89-111).  `cliSitemaps` is `opts.sitemaps`
(`none` when the flag is absent; the script substitutes `[]`).
`fileSitemaps` is `none` when no config file was found, `some none` when the
found file has no `sitemaps` key (or a null config), and `some (some l)`
when it defines one — in which case the spread
`{ ...loadedConfig, ...cosmic.config }` replaces the CLI list with `l`. -/
def mergedSitemaps (cliSitemaps : Option (List String))
    (fileSitemaps : Option (Option (List String))) : List String :=
  match fileSitemaps with
  | none => cliSitemaps.getD []
  | some none => cliSitemaps.getD []
  | some (some l) => l

/-- The sitemap list of the final `config` value: merge, then normalize. -/
def configSitemaps (cliSitemaps : Option (List String))
    (fileSitemaps : Option (Option (List String))) : List String :=
  normalizeSitemaps (mergedSitemaps cliSitemaps fileSitemaps)

theorem mem_setDedupAux {x : String} :
    ∀ (l seen : List String), x ∈ setDedupAux l seen ↔ (x ∈ l ∧ x ∉ seen) := by
  intro l
  induction l with
  | nil => intro seen; simp [setDedupAux]
  | cons a as ih =>
    intro seen
    by_cases ha : a ∈ seen
    · rw [setDedupAux, if_pos ha, ih]
      constructor
      · exact fun h => ⟨List.mem_cons_of_mem _ h.1, h.2⟩
      · rintro ⟨h1, h2⟩
        rcases List.mem_cons.mp h1 with h1 | h1
        · exact absurd (h1 ▸ ha) h2
        · exact ⟨h1, h2⟩
    · rw [setDedupAux, if_neg ha]
      constructor
      · intro h
        rcases List.mem_cons.mp h with h | h
        · exact ⟨h ▸ List.mem_cons_self _ _, h ▸ ha⟩
        · have := (ih (a :: seen)).mp h
          refine ⟨List.mem_cons_of_mem _ this.1, fun hx => this.2 (List.mem_cons_of_mem _ hx)⟩
      · rintro ⟨h1, h2⟩
        rcases List.mem_cons.mp h1 with h1 | h1
        · exact h1 ▸ List.mem_cons_self _ _
        · by_cases hxa : x = a
          · exact hxa ▸ List.mem_cons_self _ _
          · exact List.mem_cons_of_mem _ ((ih (a :: seen)).mpr
              ⟨h1, by simp [hxa, h2]⟩)

theorem nodup_setDedupAux :
    ∀ (l seen : List String), (setDedupAux l seen).Nodup := by
  intro l
  induction l with
  | nil => intro seen; simp [setDedupAux]
  | cons a as ih =>
    intro seen
    by_cases ha : a ∈ seen
    · rw [setDedupAux, if_pos ha]; exact ih seen
    · rw [setDedupAux, if_neg ha]
      refine List.nodup_cons.mpr ⟨?_, ih (a :: seen)⟩
      intro hmem
      exact ((mem_setDedupAux _ _).mp hmem).2 (List.mem_cons_self _ _)

/-- C7: for every input sitemap list, the configuration sitemap list used
for processing is normalized — the final list is duplicate-free, and a
string belongs to it exactly when it is the trim of an input entry and is
non-empty (so every entry is trimmed and empty entries are discarded). -/
theorem normalizeSitemaps_nodup_trimmed (l : List String) :
    (normalizeSitemaps l).Nodup ∧
    ∀ s, s ∈ normalizeSitemaps l ↔ (s ∈ l.map jsTrimStr ∧ s.length ≠ 0) := by
  constructor
  · exact nodup_setDedupAux _ _
  · intro s
    rw [normalizeSitemaps, setDedup, mem_setDedupAux]
    simp [List.mem_filter]

/-- C2 counterexample: with a CLI sitemap list `["https://a.example/sitemap.xml"]`
and a config file defining `sitemaps: ["https://b.example/sitemap.xml"]`, the
CLI entry does not appear in the merged configuration, because the object
spread lets the config file override the CLI list instead of unioning. -/
theorem cli_sitemap_lost_when_config_file_defines_sitemaps :
    "https://a.example/sitemap.xml" ∉
      configSitemaps (some ["https://a.example/sitemap.xml"])
        (some (some ["https://b.example/sitemap.xml"])) ∧
    "https://b.example/sitemap.xml" ∈
      configSitemaps (some ["https://a.example/sitemap.xml"])
        (some (some ["https://b.example/sitemap.xml"])) := by
  decide

/-- C2 as amended: when the discovered config file defines a `sitemaps` key,
that list replaces the CLI-supplied list entirely; the CLI list is used only
when no config file is found or the found file does not define `sitemaps`. -/
theorem configSitemaps_file_overrides_cli :
    ∀ (cli : Option (List String)) (fs : List String) (cs : List String),
      configSitemaps cli (some (some fs)) = normalizeSitemaps fs ∧
      configSitemaps (some cs) (some none) = normalizeSitemaps cs ∧
      configSitemaps (some cs) none = normalizeSitemaps cs := by
  intro cli fs cs
  exact ⟨rfl, rfl, rfl⟩

/-! ## Sitemap fetching and parsing (src/wp-pa11y.js 158-174)

`getUrls` fetches the sitemap, parses it with xml2js and evaluates
`data.urlset.url.length ? data.urlset.url.map( link => link.loc[ 0 ] ) : []`.
The parsed tree is embedded structurally: xml2js (default options) returns,
for a `urlset` document, an object whose `url` key holds the array of `url`
child elements, each with a `loc` key holding the array of `loc` text
children.  A key for an element that occurs zero times is simply absent
(`none` below); xml2js never produces an empty array.  Property access on an
absent value is a JavaScript `TypeError`, embedded as `Except.error`. -/

/-- One parsed `url` element: `link.loc` is the array of `loc` text children,
absent when the element has none. -/
structure UrlEntry where
  loc : Option (List String)
deriving DecidableEq

/-- The parsed `urlset` element: `url` is the array of `url` children, absent
when there are none. -/
structure UrlsetNode where
  url : Option (List UrlEntry)
deriving DecidableEq

/-- The whole xml2js result `data`: the root key `urlset`, absent when the
document root is a different element. -/
structure SitemapData where
  urlset : Option UrlsetNode
deriving DecidableEq

/-- Embeds `data.urlset.url.map( link => link.loc[ 0 ] )` with JavaScript
evaluation order: accessing `loc` of an entry that has none throws, and
`loc[ 0 ]` of a present but empty array is `undefined` (`none`). -/
def mapLoc : List UrlEntry → Except String (List (Option String))
  | [] => Except.ok []
  | e :: es =>
    match e.loc with
    | none => Except.error "TypeError: cannot read index 0 of undefined"
    | some locs =>
      match mapLoc es with
      | Except.error m => Except.error m
      | Except.ok rest => Except.ok (locs.head? :: rest)

/-- Embeds the result expression of `getUrls` (src/wp-pa11y.js 169-173) on
the parsed sitemap: `data.urlset.url.length ? data.urlset.url.map( link =>
link.loc[ 0 ] ) : []`.  Reading `.url` of an absent `urlset`, or `.length`
of an absent `url` array, is a thrown `TypeError`, which rejects the
promise returned by `getUrls`. -/
def jsGetUrls (data : SitemapData) : Except String (List (Option String)) :=
  match data.urlset with
  | none => Except.error "TypeError: cannot read url of undefined"
  | some uset =>
    match uset.url with
    | none => Except.error "TypeError: cannot read length of undefined"
    | some entries =>
      if entries.length ≠ 0 then mapLoc entries else Except.ok []

/-- Models the xml2js parse of a well-formed sitemap document
`<urlset> (<url><loc>…</loc>…</url>)* </urlset>`, given the list of `url`
elements, each as its list of `loc` text children: xml2js omits the key of
an element that occurs zero times and otherwise collects the occurrences
into an array in document order. -/
def parseUrlset (urls : List (List String)) : SitemapData :=
  { urlset := some
      { url :=
          if urls.length = 0 then none
          else some (urls.map (fun locs =>
            { loc := if locs.length = 0 then none else some locs })) } }

/-- C3 is a code bug: for a sitemap document whose `urlset` has zero `url`
children, xml2js omits the `url` key, and `data.urlset.url.length` throws a
`TypeError` instead of taking the `: []` branch — `getUrls` rejects rather
than producing the empty sequence.  The second conjunct evaluates the
(xml2js-unreachable) branch the ternary was written for: an empty `url`
array would indeed give the empty sequence the specification describes. -/
theorem getUrls_throws_on_absent_url_list :
    jsGetUrls (parseUrlset [])
        = Except.error "TypeError: cannot read length of undefined" ∧
    jsGetUrls { urlset := some { url := some [] } } = Except.ok [] := by
  exact ⟨rfl, rfl⟩

/-- C8 counterexample: for the sitemap document with zero `<loc>` entries
(`N = 0`), `getUrls` does not yield the empty list of extracted URLs — the
`.length` access throws on the absent `url` key — so the round-trip claim
fails at `N = 0`. -/
theorem getUrls_roundtrip_fails_at_zero :
    jsGetUrls (parseUrlset []) ≠ Except.ok [] := by
  intro h
  exact Except.noConfusion h

theorem parseUrlset_singletons (l : List String) (h : l ≠ []) :
    parseUrlset (l.map fun s => [s])
      = { urlset := some { url := some (l.map fun s => { loc := some [s] }) } } := by
  rw [parseUrlset, if_neg (by simpa using h), List.map_map]
  have hfun : (fun locs => ({ loc := if locs.length = 0 then none else some locs } : UrlEntry))
      ∘ (fun s => ([s] : List String)) = fun s => ({ loc := some [s] } : UrlEntry) := by
    funext s; rfl
  rw [hfun]

theorem mapLoc_singletons (l : List String) :
    mapLoc (l.map (fun s => { loc := some [s] }))
      = Except.ok (l.map (fun s => some s)) := by
  induction l with
  | nil => rfl
  | cons a as ih => simp [mapLoc, ih]

/-- C8 as amended (restricted to `N ≥ 1`, since at `N = 0` the code throws
instead of yielding zero entries): for every sitemap document containing
`N ≥ 1` distinct `<loc>` entries under `<urlset><url>`, `getUrls` resolves
with exactly `N` URL strings, one per `<loc>` entry, in document order. -/
theorem getUrls_roundtrip (locTexts : List String) (hne : locTexts ≠ [])
    (hnd : locTexts.Nodup) :
    jsGetUrls (parseUrlset (locTexts.map (fun s => [s])))
        = Except.ok (locTexts.map (fun s => some s)) ∧
    (locTexts.map (fun s => some s)).length = locTexts.length := by
  refine ⟨?_, by simp⟩
  rw [parseUrlset_singletons locTexts hne]
  simp only [jsGetUrls]
  rw [if_pos (by simpa using hne)]
  exact mapLoc_singletons locTexts

/-- Witness for C8 at a concrete two-URL sitemap. -/
theorem getUrls_roundtrip_check :
    jsGetUrls (parseUrlset [["https://example.com/"], ["https://example.com/about"]])
        = Except.ok [some "https://example.com/", some "https://example.com/about"] := by
  have h := (getUrls_roundtrip ["https://example.com/", "https://example.com/about"]
    (by decide) (by decide)).1
  simpa using h

/-! ## The per-sitemap task (src/wp-pa11y.js 129-150)

`config.sitemaps.forEach( async ( url ) => { ... } )` starts one independent
asynchronous task per configured sitemap.  Each task logs a start message,
derives a folder name from the hostname, creates the per-sitemap output
directory when the reporter is `html` and the directory does not exist yet,
awaits `getUrls( url )`, and calls `runPa11y` when the URL list is
non-empty.  The callback contains no `try`/`catch`: an error thrown by
`getUrls` (or by `new URL`) rejects the promise the callback returns, and
`forEach` discards that promise, so the rejection escapes the task
unhandled.  The events of one task are reified below; the hostname is a
parameter because `new URL( url ).hostname` is external WHATWG parsing. -/

/-- Embeds the folder-name derivation from `( new URL( url ) ).hostname`
(src/wp-pa11y.js 131-133): remove the first occurrence of `www.`, then the
first remaining dot (the two `replace` calls use plain-string patterns, so
only the first occurrence of each is removed). -/
def folderNameOf (hostname : String) : String :=
  String.mk (removeFirst ".".data (removeFirst "www.".data hostname.data))

/-- Observable events of one sitemap task.  `caughtLog` would be an error
caught inside the callback and logged (the way the `catch` in `runPa11y`
logs via `console.error`); the callback contains no such handler, so the
constructor is never emitted — a fetch or parse failure appears as
`rejectEscape`, the unhandled rejection of the promise the async callback
returns. -/
inductive TaskEv where
  | logStart (url : String)
  | mkdirOut (dir : String)
  | fetchSitemap (url : String)
  | launchAudit (folder : String) (urls : List (Option String))
  | rejectEscape (msg : String)
  | caughtLog (msg : String)
deriving DecidableEq

/-- Embeds the body of the `forEach` callback (src/wp-pa11y.js 129-150) as
the sequence of events of one sitemap task.  `dirExists` is the
`existsSync( dir )` observation; `fetchResult` is the settled outcome of
`getUrls( url )` (`Except.error` when the fetch, the HTTP response body read
or the XML parse threw). -/
def sitemapTask (reporter url hostname : String) (dirExists : Bool)
    (fetchResult : Except String (List (Option String))) : List TaskEv :=
  [TaskEv.logStart url] ++
  (if dirExists = false ∧ reporter = "html"
    then [TaskEv.mkdirOut (folderNameOf hostname)] else []) ++
  [TaskEv.fetchSitemap url] ++
  (match fetchResult with
   | Except.error msg => [TaskEv.rejectEscape msg]
   | Except.ok urls =>
     if urls.length > 0 then [TaskEv.launchAudit (folderNameOf hostname) urls] else [])

/-- The input of one sitemap task: its URL, its parsed hostname, whether its
output directory already exists, and the settled outcome of its fetch. -/
structure TaskInput where
  url : String
  hostname : String
  dirExists : Bool
  fetchResult : Except String (List (Option String))

/-- The task of one input under the shared configuration. -/
def taskOf (reporter : String) (t : TaskInput) : List TaskEv :=
  sitemapTask reporter t.url t.hostname t.dirExists t.fetchResult

/-- Embeds `config.sitemaps.forEach( ... )`: every configured sitemap gets
its own task; no task reads the state of another task. -/
def runAllSitemapTasks (reporter : String) (ts : List TaskInput) : List (List TaskEv) :=
  ts.map (taskOf reporter)

/-- Marker predicate: the event is a caught-and-logged error. -/
def isCaughtLog : TaskEv → Bool
  | TaskEv.caughtLog _ => true
  | _ => false

/-- C1 counterexample: for a concrete failing fetch, the full event trace of
the sitemap task shows the error is not caught at the task boundary — the
trace ends with the unhandled `rejectEscape`, and contains no `caughtLog`
event, refuting that the message is surfaced by a catch at the task
boundary. -/
theorem fetch_error_escapes_task :
    sitemapTask "html" "https://a.example/sitemap.xml" "a.example" false
        (Except.error "request to https://a.example/sitemap.xml failed")
      = [TaskEv.logStart "https://a.example/sitemap.xml",
         TaskEv.mkdirOut "aexample",
         TaskEv.fetchSitemap "https://a.example/sitemap.xml",
         TaskEv.rejectEscape "request to https://a.example/sitemap.xml failed"] ∧
    (sitemapTask "html" "https://a.example/sitemap.xml" "a.example" false
        (Except.error "request to https://a.example/sitemap.xml failed")).all
      (fun e => !isCaughtLog e) = true := by
  exact ⟨by decide, by decide⟩

/-- C1 as amended: a sitemap fetch or parse error is not caught at the task
boundary — the rejection escapes the async `forEach` callback unhandled (no
audit is launched and nothing is logged by a catch; surfacing is left to the
unhandled-rejection policy of the runtime) — while the tasks of the other
configured sitemaps are computed independently: replacing the input of task
`i` (for example by one whose fetch fails) leaves the events of every other
task unchanged. -/
theorem fetch_error_confined_to_its_task (reporter url hostname : String)
    (dirExists : Bool) (msg : String) (ts : List TaskInput) (t : TaskInput)
    (i j : Nat) (hij : i ≠ j) :
    TaskEv.rejectEscape msg
        ∈ sitemapTask reporter url hostname dirExists (Except.error msg) ∧
    (∀ f us, TaskEv.launchAudit f us
        ∉ sitemapTask reporter url hostname dirExists (Except.error msg)) ∧
    (∀ m, TaskEv.caughtLog m
        ∉ sitemapTask reporter url hostname dirExists (Except.error msg)) ∧
    (runAllSitemapTasks reporter (ts.set i t))[j]?
        = (runAllSitemapTasks reporter ts)[j]? := by
  refine ⟨?_, ?_, ?_, ?_⟩
  · simp [sitemapTask]
  · intro f us
    simp [sitemapTask]
  · intro m
    simp [sitemapTask]
  · rw [runAllSitemapTasks, runAllSitemapTasks, List.getElem?_map, List.getElem?_map,
      List.getElem?_set_ne hij]

/-- Witness for C1 at concrete inputs. -/
theorem fetch_error_confined_to_its_task_check :
    TaskEv.rejectEscape "boom"
        ∈ sitemapTask "html" "https://a.example/sitemap.xml" "a.example" false
            (Except.error "boom") ∧
    (runAllSitemapTasks "html"
        ([⟨"https://a.example/sitemap.xml", "a.example", false, Except.error "boom"⟩,
          ⟨"https://b.example/sitemap.xml", "b.example", false,
            Except.ok [some "https://b.example/"]⟩].set 0
          ⟨"https://a.example/sitemap.xml", "a.example", false, Except.error "boom"⟩))[1]?
      = (runAllSitemapTasks "html"
          [⟨"https://a.example/sitemap.xml", "a.example", false, Except.error "boom"⟩,
           ⟨"https://b.example/sitemap.xml", "b.example", false,
             Except.ok [some "https://b.example/"]⟩])[1]? := by
  have h := fetch_error_confined_to_its_task "html" "https://a.example/sitemap.xml"
    "a.example" false "boom"
    [⟨"https://a.example/sitemap.xml", "a.example", false, Except.error "boom"⟩,
     ⟨"https://b.example/sitemap.xml", "b.example", false,
       Except.ok [some "https://b.example/"]⟩]
    ⟨"https://a.example/sitemap.xml", "a.example", false, Except.error "boom"⟩
    0 1 (by decide)
  exact ⟨h.1, h.2.2.2⟩

/-- Marker predicate: the event is a directory creation. -/
def isMkdir : TaskEv → Bool
  | TaskEv.mkdirOut _ => true
  | _ => false

/-- Marker predicate: the event is the sitemap fetch. -/
def isFetch : TaskEv → Bool
  | TaskEv.fetchSitemap _ => true
  | _ => false

/-- Whether the per-sitemap output directory exists after the given events,
starting from `initial`: it exists once a `mkdirOut` happened. -/
def dirState (initial : Bool) (evs : List TaskEv) : Bool :=
  initial || evs.any isMkdir

/-- C10: with the `html` reporter the per-sitemap output directory exists by
the time the sitemap fetch happens — whatever the fetch later returns (zero
URLs, or a failure) — because `mkdirSync` runs before `await getUrls`; with
the `console` reporter the task never creates the directory. -/
theorem output_dir_created_before_fetch_iff_html (url hostname : String)
    (dirExists : Bool) (fetchResult : Except String (List (Option String))) :
    dirState dirExists
        ((sitemapTask "html" url hostname dirExists fetchResult).takeWhile
          (fun e => !isFetch e)) = true ∧
    (sitemapTask "console" url hostname dirExists fetchResult).all
        (fun e => !isMkdir e) = true := by
  constructor
  · cases dirExists with
    | false =>
      simp [sitemapTask, dirState, List.takeWhile, isFetch, isMkdir, List.any]
    | true => simp [dirState]
  · cases fetchResult with
    | error msg => simp [sitemapTask, isMkdir]
    | ok urls =>
      by_cases h : urls.length > 0 <;>
        simp [sitemapTask, isMkdir, h]

/-! ## Report destination (src/wp-pa11y.js 33, 70, 195-201)

The module constant `outputDir` resolves the fixed segment `output` under
the invocation directory `cwd()`.  The CLI defines `-d, --destination [path]`
with `outputDir` as its default, but no code ever reads `opts.destination`:
`writeResultsHtml` resolves the report path against the `outputDir`
constant. -/

/-- Embeds the module constant `outputDir` — `path.resolve` of `cwd()` and
the fixed segment `output` — for an absolute working directory without a
trailing slash. -/
def outputDirOf (cwd : String) : String :=
  cwd ++ "/output"

/-- Embeds `path.resolve( outputDir, folderName, fileName )` in
`writeResultsHtml` (src/wp-pa11y.js 198) for relative folder and file
segments. -/
def htmlReportPath (cwd folder file : String) : String :=
  outputDirOf cwd ++ "/" ++ folder ++ "/" ++ file

/-- The commander option record: `--reporter`, `--destination` and
`--sitemaps` (src/wp-pa11y.js 61-74). -/
structure ProgramOpts where
  reporter : String
  destination : String
  sitemaps : Option (List String)
deriving DecidableEq

/-- The defaults commander applies when no flag is given: reporter `html`,
destination `outputDir`, no sitemaps. -/
def defaultOpts (cwd : String) : ProgramOpts :=
  ⟨"html", outputDirOf cwd, none⟩

/-- The path `writeResultsHtml` actually writes to, as a function of the
whole parsed option record: the source resolves against the `outputDir`
module constant and never reads `opts.destination`, so the record does not
enter the result. -/
def programWritePath (cwd : String) (opts : ProgramOpts) (folder file : String) : String :=
  htmlReportPath cwd folder file

/-- Modelled from the spec: the path the specification says a report is
written to — `<destination>/<folderName>/<generatedFileName>` with
`<destination>` the value of the `--destination` CLI flag.  Stated only to
be compared against `programWritePath`. -/
def specClaimedWritePath (opts : ProgramOpts) (folder file : String) : String :=
  opts.destination ++ "/" ++ folder ++ "/" ++ file

/-- C5 is a code bug: the `--destination` flag is parsed (with default
`./output` under the invocation directory) but never read — reports go to
the hard-coded `<cwd>/output/<folderName>/<fileName>` whatever the flag
says.  At the default destination the two paths coincide (last conjunct),
which is why the bug is invisible in default runs; a non-default
`--destination` does not change where reports are written (third
conjunct), contradicting the claim. -/
theorem destination_flag_ignored :
    programWritePath "/work" ⟨"html", "/alt/reports", none⟩ "examplecom"
        "2026-10-11-examplecom.html"
      = "/work/output/examplecom/2026-10-11-examplecom.html" ∧
    programWritePath "/work" ⟨"html", "/alt/reports", none⟩ "examplecom"
        "2026-10-11-examplecom.html"
      ≠ specClaimedWritePath ⟨"html", "/alt/reports", none⟩ "examplecom"
        "2026-10-11-examplecom.html" ∧
    (∀ d1 d2 folder file : String,
      programWritePath "/work" ⟨"html", d1, none⟩ folder file
        = programWritePath "/work" ⟨"html", d2, none⟩ folder file) ∧
    programWritePath "/work" (defaultOpts "/work") "examplecom" "f.html"
      = specClaimedWritePath (defaultOpts "/work") "examplecom" "f.html" := by
  refine ⟨rfl, by decide, fun d1 d2 folder file => rfl, rfl⟩

/-! ## The audit runner `runPa11y` (src/wp-pa11y.js 183-245)

One browser for the whole task; per URL, strictly in order: a progress tick,
a new tab, the pa11y audit, then the report dispatch — `writeResultsHtml`
when the reporter is `html`, otherwise `pa11yReporterJson.results( ... )`,
whose returned string is discarded (nothing is printed; the imported cli
reporter is never used).  After the loop every tab is closed, the progress
bar stops and the browser is closed.  Any error inside the `try` is caught,
its message logged with `console.error`, and the bar stopped.  The events
are reified below; `launchFault` and `fault i` inject the possible failures
of `puppeteer.launch` and of the per-page steps. -/

/-- Observable events of one `runPa11y` invocation.  `printResult` would be
the audit result of a page printed to standard output (the way the second
variant of the script does `console.log( pa11yReporterCli.results( ... ) )`);
this implementation never emits it. -/
inductive RunEv where
  | logFound (n : Nat)
  | barStart (n : Nat)
  | barIncrement
  | barStop
  | launchBrowser
  | newPage (i : Nat)
  | audit (i : Nat) (url : String)
  | renderHtml (i : Nat)
  | writeFile (path : String)
  | jsonDiscarded (i : Nat)
  | printResult (i : Nat)
  | closePage (i : Nat)
  | closeBrowser
  | logError (msg : String)
deriving DecidableEq

/-- The events of the loop body for page `i` (src/wp-pa11y.js 215-232) when
the step does not fault: progress tick, new tab, audit, then the report
dispatch chosen by `pa11yConfig.reporter`. -/
def pageEvents (reporter folder cwd : String) (d : JsDate) (i : Nat) (url : String) :
    List RunEv :=
  [RunEv.barIncrement, RunEv.newPage i, RunEv.audit i url] ++
  (if reporter = "html"
    then [RunEv.renderHtml i,
          RunEv.writeFile (htmlReportPath cwd folder (getFileName url d))]
    else [RunEv.jsonDiscarded i])

/-- The page loop with fault injection: a faulting step jumps to the `catch`
(log the message, stop the bar) and the boolean result records whether the
loop ran to completion. -/
def runPages (reporter folder cwd : String) (d : JsDate) (fault : Nat → Option String) :
    Nat → List String → List RunEv × Bool
  | _, [] => ([], true)
  | i, url :: rest =>
    match fault i with
    | some msg =>
      ([RunEv.barIncrement, RunEv.newPage i, RunEv.logError msg, RunEv.barStop], false)
    | none =>
      let r := runPages reporter folder cwd d fault (i + 1) rest
      (pageEvents reporter folder cwd d i url ++ r.1, r.2)

/-- Embeds `runPa11y` (src/wp-pa11y.js 183-245) as its event trace: the
found-pages log line, then — unless `puppeteer.launch` faults — browser
launch, bar start, the page loop, and on an uninterrupted loop the tab
closes in open order, the bar stop and the browser close.  On any fault the
`catch` logs the message and stops the bar, closing nothing. -/
def runPa11yTrace (reporter folder cwd : String) (d : JsDate) (urlList : List String)
    (launchFault : Option String) (fault : Nat → Option String) : List RunEv :=
  [RunEv.logFound urlList.length] ++
  match launchFault with
  | some msg => [RunEv.logError msg, RunEv.barStop]
  | none =>
    let r := runPages reporter folder cwd d fault 0 urlList
    [RunEv.launchBrowser, RunEv.barStart urlList.length] ++ r.1 ++
    (if r.2
      then (List.range urlList.length).map RunEv.closePage
        ++ [RunEv.barStop, RunEv.closeBrowser]
      else [])

/-- Marker predicate: the event closes a tab or the browser. -/
def isCloseEv : RunEv → Bool
  | RunEv.closePage _ => true
  | RunEv.closeBrowser => true
  | _ => false

theorem runPages_nofault_snd (reporter folder cwd : String) (d : JsDate) :
    ∀ (l : List String) (i : Nat),
      (runPages reporter folder cwd d (fun _ => none) i l).2 = true := by
  intro l
  induction l with
  | nil => intro i; rfl
  | cons a as ih => intro i; simpa [runPages] using ih (i + 1)

theorem pageEvents_no_close (reporter folder cwd : String) (d : JsDate)
    (i : Nat) (url : String) :
    ∀ e ∈ pageEvents reporter folder cwd d i url, isCloseEv e = false := by
  intro e he
  unfold pageEvents at he
  rcases List.mem_append.mp he with he | he
  · fin_cases he <;> rfl
  · split at he
    · fin_cases he <;> rfl
    · fin_cases he <;> rfl

theorem runPages_nofault_no_close (reporter folder cwd : String) (d : JsDate) :
    ∀ (l : List String) (i : Nat) (e : RunEv),
      e ∈ (runPages reporter folder cwd d (fun _ => none) i l).1 →
        isCloseEv e = false := by
  intro l
  induction l with
  | nil => intro i e he; simp [runPages] at he
  | cons a as ih =>
    intro i e he
    simp only [runPages, List.mem_append] at he
    rcases he with he | he
    · exact pageEvents_no_close reporter folder cwd d i a e he
    · exact ih (i + 1) e he

theorem newPage_mem_runPages (reporter folder cwd : String) (d : JsDate) :
    ∀ (l : List String) (i j : Nat),
      RunEv.newPage j ∈ (runPages reporter folder cwd d (fun _ => none) i l).1 →
        j < i + l.length := by
  intro l
  induction l with
  | nil => intro i j hj; simp [runPages] at hj
  | cons a as ih =>
    intro i j hj
    simp only [runPages, List.mem_append] at hj
    rcases hj with hj | hj
    · unfold pageEvents at hj
      rcases List.mem_append.mp hj with hj | hj
      · simp at hj
        simp only [List.length_cons]
        omega
      · split at hj <;> simp at hj
    · have := ih (i + 1) j hj
      simp only [List.length_cons]
      omega

/-- C9: in every task run that completes without an error (no launch fault
and no page fault), the trace ends with the close of every tab opened
during the task — one `closePage i` per page index, in open order — followed
(after the bar stop) by the browser close; no close happens earlier, and
every opened tab is among the closed ones. -/
theorem runPa11y_success_closes_tabs_then_browser (reporter folder cwd : String)
    (d : JsDate) (urlList : List String) :
    ∃ pre,
      runPa11yTrace reporter folder cwd d urlList none (fun _ => none)
        = pre ++ (List.range urlList.length).map RunEv.closePage
            ++ [RunEv.barStop, RunEv.closeBrowser] ∧
      pre.all (fun e => !isCloseEv e) = true ∧
      ∀ i, RunEv.newPage i ∈ pre → RunEv.closePage i
        ∈ (List.range urlList.length).map RunEv.closePage := by
  refine ⟨[RunEv.logFound urlList.length, RunEv.launchBrowser, RunEv.barStart urlList.length]
    ++ (runPages reporter folder cwd d (fun _ => none) 0 urlList).1, ?_, ?_, ?_⟩
  · simp only [runPa11yTrace, runPages_nofault_snd, if_true]
    simp [List.append_assoc]
  · rw [List.all_append, Bool.and_eq_true]
    constructor
    · simp [isCloseEv]
    · rw [List.all_eq_true]
      intro e he
      simp [runPages_nofault_no_close reporter folder cwd d urlList 0 e he]
  · intro i hi
    simp only [List.mem_append] at hi
    rcases hi with hi | hi
    · simp at hi
    · have := newPage_mem_runPages reporter folder cwd d urlList 0 i hi
      simp only [Nat.zero_add] at this
      exact List.mem_map_of_mem _ (List.mem_range.mpr this)

/-- Witness for C9 at a concrete one-page run. -/
theorem runPa11y_success_closes_tabs_then_browser_check :
    ∃ pre,
      runPa11yTrace "html" "examplecom" "/work" ⟨2026, 9, 11⟩ ["https://example.com/"]
          none (fun _ => none)
        = pre ++ (List.range 1).map RunEv.closePage
            ++ [RunEv.barStop, RunEv.closeBrowser] ∧
      pre.all (fun e => !isCloseEv e) = true := by
  obtain ⟨pre, h1, h2, h3⟩ := runPa11y_success_closes_tabs_then_browser
    "html" "examplecom" "/work" ⟨2026, 9, 11⟩ ["https://example.com/"]
  exact ⟨pre, h1, h2⟩

/-- Marker predicate: the event emits a result to standard output or writes
a file. -/
def isResultEmission : RunEv → Bool
  | RunEv.printResult _ => true
  | RunEv.writeFile _ => true
  | _ => false

/-- C4 is a code bug: with the `console` reporter the loop calls
`pa11yReporterJson.results( results[ i ] )` and discards the returned
string — no audit result is printed to standard output (the cli text
reporter imported at the top is never called), though it remains true that
nothing is written to the filesystem and no directory is created.  The
trace of a concrete one-page console run shows exactly one discarded JSON
rendering, no result emission and no filesystem event, and the sitemap task
for that run creates no directory. -/
theorem console_reporter_emits_no_result :
    (runPa11yTrace "console" "examplecom" "/work" ⟨2026, 9, 11⟩ ["https://example.com/"]
        none (fun _ => none)).all (fun e => !isResultEmission e) = true ∧
    RunEv.jsonDiscarded 0
      ∈ runPa11yTrace "console" "examplecom" "/work" ⟨2026, 9, 11⟩ ["https://example.com/"]
          none (fun _ => none) ∧
    (sitemapTask "console" "https://example.com/sitemap.xml" "example.com" false
        (Except.ok [some "https://example.com/"])).all (fun e => !isMkdir e) = true := by
  exact ⟨by decide, by decide, by decide⟩

end WpPa11y
